import Mathlib

/-
Verification development for the windows-volume-control-mcp repository.

This file shallowly embeds the context-aware profile-switching monitor
(`mcp_handler.py`) and the profile store (`profile_manager.py`) in Lean 4 and
settles the frozen claims about them.

Modelling conventions:
- JSON documents are the inductive `Json` below; Python `dict.get(k, d)` is
  `Json.getD`, Python truthiness is `Json.pyTruthy` / `truthyS`.
- Python's `re.search(pattern, title, re.IGNORECASE)` is embedded for the
  regex subset actually exercised by the configuration rules: literal
  characters, `.` (any char), `*` (zero or more of the previous atom) and
  backslash escapes.  A `*` with nothing to repeat (or a trailing `\`) is a
  parse error, matching `re.error` in Python.  Case-insensitivity is modelled
  by lower-casing both pattern and subject.
- The monitor loop body (`_monitor_loop`) becomes a pure `tick` function over
  an explicit `MonState`; each tick consumes the window observation of that
  tick and an oracle giving the success of the profile application the
  SoundManager would perform.  Events (`MEvent`) record whether the tick
  evaluated the rules and whether/with which outcome it attempted to apply a
  profile.
- The file system holding profile files is a function `FS` from profile name
  to `Option (Option Json)`: `none` = file absent, `some none` = file present
  but undecodable JSON, `some (some doc)` = decoded document.  The Windows
  registry written by `apply_profile` is a function `Reg` from (category,
  sub-event) to path, with a per-write success oracle.
-/

set_option autoImplicit false

/-- JSON values, as decoded by Python's `json` module. -/
inductive Json where
  | null
  | bool (b : Bool)
  | num (n : Int)
  | str (s : String)
  | arr (xs : List Json)
  | obj (kvs : List (String × Json))

/-- First value bound to key `k` in an association list (Python dict lookup). -/
def lookupKV (kvs : List (String × Json)) (k : String) : Option Json :=
  match kvs with
  | [] => none
  | (k', v) :: rest => if k' = k then some v else lookupKV rest k

/-- Python `d.get(k, default)` on a JSON object; non-objects yield the default. -/
def Json.getD (j : Json) (k : String) (d : Json) : Json :=
  match j with
  | .obj kvs => (lookupKV kvs k).getD d
  | _ => d

/-- Python truthiness of a JSON value (`bool(x)`). -/
def Json.pyTruthy : Json → Bool
  | .null => false
  | .bool b => b
  | .num n => n != 0
  | .str s => !s.isEmpty
  | .arr xs => !xs.isEmpty
  | .obj kvs => !kvs.isEmpty

/-- Python truthiness of an `Optional[str]` (`None` and `""` are falsy). -/
def truthyS : Option String → Bool
  | none => false
  | some s => !s.isEmpty

/-- Python `a or b` on `Optional[str]` values. -/
def pyOr (a b : Option String) : Option String :=
  if truthyS a then a else b

/-- Regex atom of the embedded subset: a literal character or `.`. -/
inductive RAtom where
  | lit (c : Char)
  | any
deriving DecidableEq

/-- Regex token: a single atom or a starred atom (`a*`, `.*`, ...). -/
inductive RTok where
  | once (a : RAtom)
  | star (a : RAtom)
deriving DecidableEq

/-- Does an atom match one character? -/
def atomMatches : RAtom → Char → Bool
  | .lit c, x => x = c
  | .any, _ => true

/-- Fuelled backtracking matcher; every recursive call strictly decreases
`ts.length + cs.length`, so with fuel above that sum the `0` case is never
reached and this computes the usual backtracking semantics.  Fuel keeps the
recursion structural so that concrete runs reduce in the kernel. -/
def matchHereF : Nat → List RTok → List Char → Bool
  | 0, _, _ => false
  | _ + 1, [], _ => true
  | _ + 1, .once _ :: _, [] => false
  | f + 1, .once a :: ts, c :: cs => atomMatches a c && matchHereF f ts cs
  | f + 1, .star _ :: ts, [] => matchHereF f ts []
  | f + 1, .star a :: ts, c :: cs =>
      matchHereF f ts (c :: cs) || (atomMatches a c && matchHereF f (.star a :: ts) cs)

/-- Does the token list match some prefix of the character list? -/
def matchHere (ts : List RTok) (cs : List Char) : Bool :=
  matchHereF (ts.length + cs.length + 1) ts cs

/-- Does the token list match starting at some position (Python `re.search`)? -/
def searchFrom (ts : List RTok) : List Char → Bool
  | [] => matchHere ts []
  | c :: cs => matchHere ts (c :: cs) || searchFrom ts cs

/-- Compile the embedded regex subset; `none` models Python's `re.error`. -/
def reParseAux : List Char → List RTok → Option (List RTok)
  | [], acc => some acc.reverse
  | '.' :: rest, acc => reParseAux rest (.once .any :: acc)
  | '*' :: rest, acc =>
      match acc with
      | .once a :: acc' => reParseAux rest (.star a :: acc')
      | _ => none
  | '\\' :: c :: rest, acc => reParseAux rest (.once (.lit c) :: acc)
  | ['\\'], _ => none
  | c :: rest, acc => reParseAux rest (.once (.lit c) :: acc)

/-- Compile a pattern string, lower-cased to model `re.IGNORECASE`. -/
def reParseCI (p : String) : Option (List RTok) :=
  reParseAux (p.data.map Char.toLower) []

/-- Case-insensitive search of a compiled pattern in a subject string. -/
def reSearchCI (ts : List RTok) (subject : String) : Bool :=
  searchFrom ts (subject.data.map Char.toLower)

/-- A context rule as read from the configuration (`context_rule.get(...)`);
`none` models a missing field. -/
structure CtxRule where
  type_ : Option String
  pattern : Option String
  profile : Option String
deriving DecidableEq

/-- The active-window information returned by `_get_active_window_info`. -/
structure WindowInfo where
  title : String
  pid : Nat
  process_name : String
deriving DecidableEq

/-- The rule loop of `MCPHandler._match_context`: skip rules with a missing or
falsy field, skip unsupported types and invalid regexes, return the profile of
the first rule whose pattern search succeeds. -/
def matchRules (title : String) : List CtxRule → Option String
  | [] => none
  | r :: rs =>
      if truthyS r.type_ && truthyS r.pattern && truthyS r.profile then
        if r.type_ = some "active_window_title" then
          match r.pattern with
          | some p =>
              match reParseCI p with
              | some ts => if reSearchCI ts title then r.profile else matchRules title rs
              | none => matchRules title rs
          | none => matchRules title rs
        else
          matchRules title rs
      else
        matchRules title rs

/-- `MCPHandler._match_context`: no window info or an empty rule list yields
no match; otherwise run the rule loop on the window title. -/
def matchContext (info : Option WindowInfo) (contexts : List CtxRule) : Option String :=
  match info with
  | none => none
  | some i => if contexts.isEmpty then none else matchRules i.title contexts

/-- A rule that `_match_context` can act on: all three fields present and
truthy, supported type, and a pattern that compiles. -/
def goodRule (r : CtxRule) : Bool :=
  truthyS r.type_ && truthyS r.pattern && truthyS r.profile &&
    r.type_ = some "active_window_title" &&
    (match r.pattern with
     | some p => (reParseCI p).isSome
     | none => false)

/-- Does a rule's pattern (compiled case-insensitively) match the title? -/
def ruleMatches (title : String) (r : CtxRule) : Bool :=
  match r.pattern with
  | some p =>
      match reParseCI p with
      | some ts => reSearchCI ts title
      | none => false
  | none => false

/-- Monitor configuration fields read in `MCPHandler.__init__`. -/
structure MonConfig where
  contexts : List CtxRule
  default_profile : Option String
deriving DecidableEq

/-- Monitor runtime state: the profile last successfully applied by the loop
and the dedup key `last_active_window_title`. -/
structure MonState where
  current_profile : Option String
  last_title : Option String
deriving DecidableEq

/-- Observable events of one tick of `_monitor_loop`: rule evaluation, and a
profile-application attempt with its outcome. -/
inductive MEvent where
  | evalRules
  | applyAttempt (target : String) (ok : Bool)
deriving DecidableEq

/-- Is the event a rule evaluation? -/
def MEvent.isEval : MEvent → Bool
  | .evalRules => true
  | _ => false

/-- Is the event a profile-application attempt? -/
def MEvent.isApply : MEvent → Bool
  | .applyAttempt _ _ => true
  | _ => false

/-- The part of the tick after the dedup check: update the remembered title,
match the rules, pick `target = matched or default`, and apply it when it is
truthy and differs from the remembered current profile. -/
def tickEval (cfg : MonConfig) (applyOk : String → Bool) (st : MonState)
    (info : Option WindowInfo) (newTitle : Option String) : MonState × List MEvent :=
  let st1 : MonState := { st with last_title := newTitle }
  let matched := matchContext info cfg.contexts
  let target := pyOr matched cfg.default_profile
  if target = st1.current_profile then
    (st1, [.evalRules])
  else if truthyS target then
    match target with
    | some t =>
        if applyOk t then
          ({ st1 with current_profile := some t }, [.evalRules, .applyAttempt t true])
        else
          (st1, [.evalRules, .applyAttempt t false])
    | none => (st1, [.evalRules])
  else
    (st1, [.evalRules])

/-- One iteration of `_monitor_loop`: if window info is present and its title
equals the remembered title, sleep and continue (no events); otherwise run the
evaluation part of the tick. -/
def tick (cfg : MonConfig) (applyOk : String → Bool) (st : MonState) :
    Option WindowInfo → MonState × List MEvent
  | some i =>
      if st.last_title = some i.title then (st, [])
      else tickEval cfg applyOk st (some i) (some i.title)
  | none => tickEval cfg applyOk st none none

/-- Run the monitor loop over a list of tick observations, each paired with
that tick's profile-application success oracle. -/
def runMonitor (cfg : MonConfig) :
    MonState → List (Option WindowInfo × (String → Bool)) → MonState × List MEvent
  | st, [] => (st, [])
  | st, (info, applyOk) :: rest =>
      let r1 := tick cfg applyOk st info
      let r2 := runMonitor cfg r1.1 rest
      (r2.1, r1.2 ++ r2.2)

/-- Fold recovering the profile last successfully applied in an event list. -/
def lastOkApplied (init : Option String) (evs : List MEvent) : Option String :=
  evs.foldl (fun acc e => match e with
    | .applyAttempt t true => some t
    | _ => acc) init

/-- `MCPHandler._load_config`: a missing file or undecodable JSON yields the
empty configuration `{}`. -/
def load_config (file : Option (Option Json)) : Json :=
  match file with
  | some (some j) => j
  | _ => Json.obj []

/-- `self.mcp_config = self.config.get("mcp_profiles", {})`. -/
def mcpConfigOf (config : Json) : Json :=
  config.getD "mcp_profiles" (Json.obj [])

/-- `self.contexts = self.mcp_config.get("contexts", [])`. -/
def contextsOf (config : Json) : Json :=
  (mcpConfigOf config).getD "contexts" (Json.arr [])

/-- `MCPHandler.start_monitoring` as a transition on the running flag: it
returns early when `self.mcp_config` is falsy or the thread is already alive,
and otherwise starts the monitor thread. -/
def start_monitoring (mcp_config : Json) (running : Bool) : Bool :=
  if !mcp_config.pyTruthy then running
  else if running then running
  else true

/-- A character of the class `[a-zA-Z0-9_\- ]` used by `_is_valid_profile_name`. -/
def validNameChar (c : Char) : Bool :=
  c.isAlpha || c.isDigit || c = '_' || c = '-' || c = ' '

/-- `profile_manager._is_valid_profile_name`: the name must fully match
`^[a-zA-Z0-9_\- ]+$` and not start with a dot.  Python's `$` also matches just
before one trailing newline, so a name ending in a single `'\n'` whose
remainder is in the class is accepted as well. -/
def _is_valid_profile_name (name : String) : Bool :=
  let cs := name.data
  let core := match cs.getLast? with
    | some c => if c = '\n' then cs.dropLast else cs
    | none => cs
  let startsDot := match cs with
    | '.' :: _ => true
    | _ => false
  !core.isEmpty && core.all validNameChar && !startsDot

/-- The Sound Store contents: category to sub-event to path-or-null, as
returned by `list_sound_events("HKCU")`. -/
abbrev SoundMap := List (String × List (String × Option String))

/-- JSON encoding of a path-or-null value. -/
def encOpt : Option String → Json
  | none => Json.null
  | some s => Json.str s

/-- JSON encoding of one category's sub-event mapping. -/
def encodeSubs (subs : List (String × Option String)) : Json :=
  Json.obj (subs.map fun sv => (sv.1, encOpt sv.2))

/-- JSON encoding of the whole sounds mapping. -/
def encodeSounds (m : SoundMap) : Json :=
  Json.obj (m.map fun cs => (cs.1, encodeSubs cs.2))

/-- The document written by `save_profile`:
`{"name": profile_name, "sounds": current_sounds}`. -/
def profileDoc (name : String) (store : SoundMap) : Json :=
  Json.obj [("name", Json.str name), ("sounds", encodeSounds store)]

/-- The profile directory as a map from profile name to file contents:
`none` = no file, `some none` = present but undecodable JSON,
`some (some doc)` = decoded document. -/
abbrev FS := String → Option (Option Json)

/-- `profile_manager.save_profile`: an invalid name fails without touching
storage; otherwise the snapshot document is written to the profile's file. -/
def save_profile (files : FS) (current_sounds : SoundMap) (profile_name : String) :
    FS × Bool :=
  if _is_valid_profile_name profile_name then
    ((fun n => if n = profile_name then some (some (profileDoc profile_name current_sounds))
               else files n), true)
  else
    (files, false)

/-- The shape check in `load_profile`: the decoded document must be a dict
containing the keys `"name"` and `"sounds"`. -/
def validShape (doc : Json) : Bool :=
  match doc with
  | .obj kvs => (lookupKV kvs "name").isSome && (lookupKV kvs "sounds").isSome
  | _ => false

/-- `profile_manager.load_profile`: fail on an invalid name, a missing file,
undecodable JSON, or a document failing the shape check; otherwise return the
decoded document (a name-field mismatch only logs a warning). -/
def load_profile (files : FS) (profile_name : String) : Option Json :=
  if _is_valid_profile_name profile_name then
    match files profile_name with
    | some (some doc) => if validShape doc then some doc else none
    | _ => none
  else
    none

/-- The per-user registry sound bindings: category and sub-event to path. -/
abbrev Reg := String → String → String

/-- Update one binding of the registry. -/
def updReg (reg : Reg) (cat sub path : String) : Reg :=
  fun c s => if c = cat && s = sub then path else reg c s

/-- The inner loop of `apply_profile` over one category's sub-events: `null`
becomes the empty path, a non-string value is counted as a failure without a
write, and each write's outcome comes from the `setOk` oracle
(`set_sound_file_path`).  Returns the registry and `(success, fail, total)`. -/
def applySubs (setOk : String → String → String → Bool) (cat : String) :
    Reg → List (String × Json) → Reg × Nat × Nat × Nat
  | reg, [] => (reg, 0, 0, 0)
  | reg, (sub, v) :: rest =>
      match v with
      | .null =>
          if setOk cat "" sub then
            let r := applySubs setOk cat (updReg reg cat sub "") rest
            (r.1, r.2.1 + 1, r.2.2.1, r.2.2.2 + 1)
          else
            let r := applySubs setOk cat reg rest
            (r.1, r.2.1, r.2.2.1 + 1, r.2.2.2 + 1)
      | .str p =>
          if setOk cat p sub then
            let r := applySubs setOk cat (updReg reg cat sub p) rest
            (r.1, r.2.1 + 1, r.2.2.1, r.2.2.2 + 1)
          else
            let r := applySubs setOk cat reg rest
            (r.1, r.2.1, r.2.2.1 + 1, r.2.2.2 + 1)
      | _ =>
          let r := applySubs setOk cat reg rest
          (r.1, r.2.1, r.2.2.1 + 1, r.2.2.2 + 1)

/-- The outer loop of `apply_profile` over categories; a category whose value
is not a dict is skipped without affecting the counters. -/
def applyCats (setOk : String → String → String → Bool) :
    Reg → List (String × Json) → Reg × Nat × Nat × Nat
  | reg, [] => (reg, 0, 0, 0)
  | reg, (cat, sv) :: rest =>
      match sv with
      | .obj subs =>
          let r1 := applySubs setOk cat reg subs
          let r2 := applyCats setOk r1.1 rest
          (r2.1, r1.2.1 + r2.2.1, r1.2.2.1 + r2.2.2.1, r1.2.2.2 + r2.2.2.2)
      | _ => applyCats setOk reg rest

/-- The application part of `profile_manager.apply_profile` on a loaded
document: read `sounds` (defaulting to `{}`), fail outright when it is not a
dict, otherwise bulk-write every binding and report failure exactly when some
binding failed (`fail_count > 0`); zero bindings count as success. -/
def apply_profile_doc (setOk : String → String → String → Bool) (doc : Json)
    (reg : Reg) : Bool × Reg :=
  match doc.getD "sounds" (Json.obj []) with
  | .obj cats =>
      let r := applyCats setOk reg cats
      (if 0 < r.2.2.1 then false else if r.2.2.2 = 0 then true else true, r.1)
  | _ => (false, reg)

/-- Over rule lists every rule of which is actionable, the rule loop is the
first-match-wins search by `ruleMatches`. -/
theorem matchRules_eq_find (title : String) : ∀ rules : List CtxRule,
    (∀ r ∈ rules, goodRule r = true) →
    matchRules title rules = (rules.find? (ruleMatches title)).bind CtxRule.profile := by
  intro rules
  induction rules with
  | nil => intro _; rfl
  | cons r rs ih =>
    intro h
    have hr : goodRule r = true := h r (List.mem_cons_self r rs)
    have hrs : ∀ x ∈ rs, goodRule x = true := fun x hx => h x (List.mem_cons_of_mem r hx)
    obtain ⟨ty, pat, prof⟩ := r
    simp only [goodRule, Bool.and_eq_true, and_assoc, decide_eq_true_eq] at hr
    obtain ⟨hty, hpat, hprof, htyeq, hparse⟩ := hr
    subst htyeq
    obtain ⟨p, hp⟩ : ∃ p, pat = some p := by
      cases hpe : pat with
      | none => rw [hpe] at hpat; simp [truthyS] at hpat
      | some p => exact ⟨p, rfl⟩
    subst hp
    obtain ⟨ts, hts⟩ : ∃ ts, reParseCI p = some ts := by
      cases hq : reParseCI p with
      | none => simp [hq] at hparse
      | some ts => exact ⟨ts, rfl⟩
    have hmr : ruleMatches title ⟨some "active_window_title", some p, prof⟩
        = reSearchCI ts title := by
      simp [ruleMatches, hts]
    rw [List.find?_cons, hmr]
    cases hsearch : reSearchCI ts title with
    | true =>
      simp [matchRules, hty, hpat, hprof, hts, hsearch]
    | false =>
      simp only [matchRules, hty, hpat, hprof, hts, hsearch, Bool.and_self, Bool.true_and,
        Bool.and_true, if_true, if_false, Bool.false_eq_true, reduceIte]
      simpa using ih hrs

/-- C1: for every window info with a title and every ordered list of
actionable `active_window_title` rules, `_match_context` returns the profile
of the first rule in list order whose pattern matches the title under
case-insensitive regex search, and no match when no rule's pattern matches. -/
theorem matchContext_first_match (i : WindowInfo) (rules : List CtxRule)
    (h : ∀ r ∈ rules, goodRule r = true) :
    matchContext (some i) rules = (rules.find? (ruleMatches i.title)).bind CtxRule.profile := by
  cases rules with
  | nil => rfl
  | cons r rs =>
    show (if (r :: rs).isEmpty then none else matchRules i.title (r :: rs)) = _
    rw [List.isEmpty_cons]
    exact matchRules_eq_find i.title (r :: rs) h

/-- The rules of the spec's worked example for C1. -/
def c1rules : List CtxRule :=
  [⟨some "active_window_title", some "A.*", some "p1"⟩,
   ⟨some "active_window_title", some ".*", some "p2"⟩]

/-- A window titled `t` for the matcher examples. -/
def c1info (t : String) : WindowInfo := ⟨t, 1, "app.exe"⟩

/-- Witness for C1: on rules `[("A.*","p1"), (".*","p2")]` the title `"Alpha"`
matches the first rule giving `"p1"` and `"Other"` falls through to `"p2"`. -/
theorem matchContext_first_match_witness :
    (∀ r ∈ c1rules, goodRule r = true)
      ∧ matchContext (some (c1info "Alpha")) c1rules = some "p1"
      ∧ matchContext (some (c1info "Other")) c1rules = some "p2" := by
  refine ⟨by decide, ?_, ?_⟩
  · rw [matchContext_first_match (c1info "Alpha") c1rules (by decide)]; decide
  · rw [matchContext_first_match (c1info "Other") c1rules (by decide)]; decide

/-- A rule `_match_context` skips (missing or falsy field, unsupported type,
or invalid regex) contributes nothing to the loop's result. -/
theorem matchRules_cons_skip (title : String) (r : CtxRule) (rs : List CtxRule)
    (hg : goodRule r = false) :
    matchRules title (r :: rs) = matchRules title rs := by
  conv_lhs => rw [matchRules]
  by_cases h1 : (truthyS r.type_ && truthyS r.pattern && truthyS r.profile) = true
  · rw [if_pos h1]
    by_cases h2 : r.type_ = some "active_window_title"
    · rw [if_pos h2]
      cases hp : r.pattern with
      | none => rfl
      | some p =>
        cases hq : reParseCI p with
        | none => simp [hq]
        | some ts =>
          exfalso
          simp only [Bool.and_eq_true] at h1
          obtain ⟨⟨ht, hpt⟩, hpr⟩ := h1
          rw [hp] at hpt
          rw [h2] at ht
          have : goodRule r = true := by
            simp [goodRule, ht, hpt, hpr, h2, hp, hq]
          rw [this] at hg
          exact Bool.noConfusion hg
    · rw [if_neg h2]
  · rw [if_neg (by simpa using h1)]

/-- Dropping all non-actionable rules in advance does not change the loop. -/
theorem matchRules_filter (title : String) : ∀ rules : List CtxRule,
    matchRules title rules = matchRules title (rules.filter goodRule) := by
  intro rules
  induction rules with
  | nil => rfl
  | cons r rs ih =>
    cases hg : goodRule r with
    | true =>
      rw [List.filter_cons_of_pos hg]
      conv_lhs => rw [matchRules]
      conv_rhs => rw [matchRules]
      rw [← ih]
    | false =>
      rw [List.filter_cons_of_neg (by simp [hg]), matchRules_cons_skip title r rs hg, ih]

/-- C9: a rule missing any of type, pattern or profile, a rule whose regex
pattern does not compile, and a rule of an unsupported type are skipped and
never abort matching: `_match_context` computes the same result as on the
remaining well-formed rules, for every window info and rule list; the final
conjuncts exhibit one skipped rule of each kind. -/
theorem matchContext_skips_bad_rules :
    (∀ (info : Option WindowInfo) (rules : List CtxRule),
      matchContext info rules = matchContext info (rules.filter goodRule))
  ∧ goodRule ⟨none, some ".*", some "p"⟩ = false
  ∧ goodRule ⟨some "active_window_title", none, some "p"⟩ = false
  ∧ goodRule ⟨some "active_window_title", some ".*", none⟩ = false
  ∧ goodRule ⟨some "active_window_title", some "*", some "p"⟩ = false
  ∧ goodRule ⟨some "process_name", some ".*", some "p"⟩ = false := by
  refine ⟨?_, by decide, by decide, by decide, by decide, by decide⟩
  intro info rules
  cases info with
  | none => rfl
  | some i =>
    cases rules with
    | nil => rfl
    | cons r rs =>
      show (if (r :: rs).isEmpty then none else matchRules i.title (r :: rs))
        = matchContext (some i) ((r :: rs).filter goodRule)
      rw [List.isEmpty_cons]
      simp only [if_false, Bool.false_eq_true]
      rw [matchRules_filter]
      cases hf : (r :: rs).filter goodRule with
      | nil => rfl
      | cons q qs =>
        show matchRules i.title (q :: qs)
          = if (q :: qs).isEmpty then none else matchRules i.title (q :: qs)
        rw [List.isEmpty_cons]
        simp

/-- Every branch of the evaluating part of a tick stores the new title. -/
theorem tickEval_last_title (cfg : MonConfig) (ok : String → Bool) (st : MonState)
    (info : Option WindowInfo) (nt : Option String) :
    (tickEval cfg ok st info nt).1.last_title = nt := by
  simp only [tickEval]
  repeat' split
  all_goals rfl

/-- After a tick that saw a window, the remembered title is that window's. -/
theorem tick_last_title (cfg : MonConfig) (ok : String → Bool) (st : MonState)
    (i : WindowInfo) :
    (tick cfg ok st (some i)).1.last_title = some i.title := by
  show (if st.last_title = some i.title then (st, ([] : List MEvent))
      else tickEval cfg ok st (some i) (some i.title)).1.last_title = some i.title
  by_cases h : st.last_title = some i.title
  · rw [if_pos h]; exact h
  · rw [if_neg h]; exact tickEval_last_title cfg ok st (some i) (some i.title)

/-- The evaluating part of a tick emits one rule evaluation and at most one
application attempt. -/
theorem tickEval_events (cfg : MonConfig) (ok : String → Bool) (st : MonState)
    (info : Option WindowInfo) (nt : Option String) :
    (tickEval cfg ok st info nt).2 = [MEvent.evalRules] ∨
    ∃ t b, (tickEval cfg ok st info nt).2 = [MEvent.evalRules, MEvent.applyAttempt t b] := by
  simp only [tickEval]
  repeat' split
  all_goals first
    | exact Or.inl rfl
    | exact Or.inr ⟨_, _, rfl⟩

/-- The events of one tick: none (dedup), a bare evaluation, or an evaluation
followed by one application attempt. -/
theorem tick_events (cfg : MonConfig) (ok : String → Bool) (st : MonState)
    (info : Option WindowInfo) :
    (tick cfg ok st info).2 = [] ∨ (tick cfg ok st info).2 = [MEvent.evalRules] ∨
    ∃ t b, (tick cfg ok st info).2 = [MEvent.evalRules, MEvent.applyAttempt t b] := by
  cases info with
  | none => exact Or.inr (tickEval_events cfg ok st none none)
  | some i =>
    have hred : tick cfg ok st (some i)
        = if st.last_title = some i.title then (st, [])
          else tickEval cfg ok st (some i) (some i.title) := rfl
    rw [hred]
    by_cases h : st.last_title = some i.title
    · rw [if_pos h]; exact Or.inl rfl
    · rw [if_neg h]; exact Or.inr (tickEval_events cfg ok st (some i) (some i.title))

/-- A run whose every observation repeats the already-remembered title does
nothing at all. -/
theorem runMonitor_dedup (cfg : MonConfig) (t : String) :
    ∀ (inputs : List (WindowInfo × (String → Bool))) (st : MonState),
      st.last_title = some t → (∀ p ∈ inputs, p.1.title = t) →
      runMonitor cfg st (inputs.map fun p => (some p.1, p.2)) = (st, []) := by
  intro inputs
  induction inputs with
  | nil => intro st _ _; rfl
  | cons p rest ih =>
    intro st h hall
    have hp : p.1.title = t := hall p (List.mem_cons_self p rest)
    have htick : tick cfg p.2 st (some p.1) = (st, []) := by
      show (if st.last_title = some p.1.title then (st, ([] : List MEvent))
          else tickEval cfg p.2 st (some p.1) (some p.1.title)) = (st, [])
      rw [if_pos (by rw [hp]; exact h)]
    simp only [List.map_cons, runMonitor, htick]
    rw [ih st h (fun q hq => hall q (List.mem_cons_of_mem p hq))]
    rfl

/-- C2: over any run of ticks that all retrieve the same window title, the
monitor evaluates rules at most once and attempts a profile application at
most once; the final conjunct is the single-tick form: a tick whose retrieved
title equals the remembered one changes nothing and emits no events. -/
theorem monitor_dedup_run (cfg : MonConfig) (st : MonState) (t : String)
    (inputs : List (WindowInfo × (String → Bool)))
    (hall : ∀ p ∈ inputs, p.1.title = t) :
    ((runMonitor cfg st (inputs.map fun p => (some p.1, p.2))).2.countP MEvent.isEval ≤ 1
      ∧ (runMonitor cfg st (inputs.map fun p => (some p.1, p.2))).2.countP MEvent.isApply ≤ 1)
    ∧ ∀ (ok : String → Bool) (i : WindowInfo), st.last_title = some i.title →
        tick cfg ok st (some i) = (st, []) := by
  constructor
  · cases inputs with
    | nil => simp [runMonitor]
    | cons p rest =>
      have hp : p.1.title = t := hall p (List.mem_cons_self p rest)
      have h1 : (tick cfg p.2 st (some p.1)).1.last_title = some t := by
        rw [tick_last_title, hp]
      have hrest : ∀ q ∈ rest, q.1.title = t :=
        fun q hq => hall q (List.mem_cons_of_mem p hq)
      simp only [List.map_cons, runMonitor]
      rw [runMonitor_dedup cfg t rest (tick cfg p.2 st (some p.1)).1 h1 hrest]
      rcases tick_events cfg p.2 st (some p.1) with h | h | ⟨t', b, h⟩ <;>
        simp [h, List.countP_cons, List.countP_nil, MEvent.isEval, MEvent.isApply]
  · intro ok i h
    have hred : tick cfg ok st (some i)
        = if st.last_title = some i.title then (st, [])
          else tickEval cfg ok st (some i) (some i.title) := rfl
    rw [hred, if_pos h]

/-- Configuration for the dedup witness. -/
def c2cfg : MonConfig :=
  ⟨[⟨some "active_window_title", some "Notepad", some "Work"⟩], some "Default"⟩

/-- A window observation repeated on every tick of the dedup witness run. -/
def c2win : WindowInfo := ⟨"Notepad", 7, "notepad.exe"⟩

/-- The dedup witness run: three ticks retrieving the same title. -/
def c2inputs : List (WindowInfo × (String → Bool)) :=
  [(c2win, fun _ => true), (c2win, fun _ => true), (c2win, fun _ => true)]

/-- Witness for C2: a concrete three-tick run with an unchanged title
evaluates rules at most once and applies a profile at most once. -/
theorem monitor_dedup_run_witness :
    (runMonitor c2cfg ⟨none, none⟩ (c2inputs.map fun p => (some p.1, p.2))).2.countP
        MEvent.isEval ≤ 1
      ∧ (runMonitor c2cfg ⟨none, none⟩ (c2inputs.map fun p => (some p.1, p.2))).2.countP
        MEvent.isApply ≤ 1 :=
  (monitor_dedup_run c2cfg ⟨none, none⟩ "Notepad" c2inputs (by decide)).1

/-- Configuration of the end-to-end scenario: one rule sending `"Notepad"`
windows to `"WorkProfile"`, with default profile `"Default"`. -/
def c3cfg : MonConfig :=
  ⟨[⟨some "active_window_title", some "Notepad", some "WorkProfile"⟩], some "Default"⟩

/-- The four window observations of the end-to-end scenario. -/
def c3chrome : WindowInfo := ⟨"Chrome", 11, "chrome.exe"⟩

/-- Second and third observation of the scenario. -/
def c3note : WindowInfo := ⟨"Notepad", 12, "notepad.exe"⟩

/-- Fourth observation of the scenario. -/
def c3expl : WindowInfo := ⟨"Explorer", 13, "explorer.exe"⟩

/-- C3: from a fresh monitor, the title sequence Chrome, Notepad, Notepad,
Explorer applies Default, then WorkProfile, nothing on the deduplicated third
tick, then Default again; the second conjunct isolates the third tick as a
strict no-op. -/
theorem monitor_scenario_notepad :
    runMonitor c3cfg ⟨none, none⟩
        [(some c3chrome, fun _ => true), (some c3note, fun _ => true),
         (some c3note, fun _ => true), (some c3expl, fun _ => true)]
      = (⟨some "Default", some "Explorer"⟩,
         [MEvent.evalRules, MEvent.applyAttempt "Default" true,
          MEvent.evalRules, MEvent.applyAttempt "WorkProfile" true,
          MEvent.evalRules, MEvent.applyAttempt "Default" true])
    ∧ tick c3cfg (fun _ => true) ⟨some "WorkProfile", some "Notepad"⟩ (some c3note)
      = (⟨some "WorkProfile", some "Notepad"⟩, []) :=
  ⟨by decide, by decide⟩

/-- Appending event lists composes the successful-application fold. -/
theorem lastOkApplied_append (init : Option String) (a b : List MEvent) :
    lastOkApplied init (a ++ b) = lastOkApplied (lastOkApplied init a) b := by
  unfold lastOkApplied
  rw [List.foldl_append]

/-- One tick moves `current_profile` exactly as the successful-application
fold over its own events prescribes. -/
theorem tick_current_foldl (cfg : MonConfig) (ok : String → Bool) (st : MonState)
    (info : Option WindowInfo) :
    (tick cfg ok st info).1.current_profile
      = lastOkApplied st.current_profile (tick cfg ok st info).2 := by
  cases info with
  | none =>
    have hred : tick cfg ok st none = tickEval cfg ok st none none := rfl
    rw [hred]
    simp only [tickEval, lastOkApplied]
    repeat' split
    all_goals rfl
  | some i =>
    have hred : tick cfg ok st (some i)
        = if st.last_title = some i.title then (st, [])
          else tickEval cfg ok st (some i) (some i.title) := rfl
    rw [hred]
    by_cases h : st.last_title = some i.title
    · rw [if_pos h]; rfl
    · rw [if_neg h]
      simp only [tickEval, lastOkApplied]
      repeat' split
      all_goals rfl

/-- Over a whole run, `current_profile` equals the successful-application
fold over the emitted events, from any starting state. -/
theorem runMonitor_current_foldl (cfg : MonConfig) :
    ∀ (inputs : List (Option WindowInfo × (String → Bool))) (st : MonState),
      (runMonitor cfg st inputs).1.current_profile
        = lastOkApplied st.current_profile (runMonitor cfg st inputs).2 := by
  intro inputs
  induction inputs with
  | nil => intro st; rfl
  | cons p rest ih =>
    intro st
    simp only [runMonitor]
    rw [ih (tick cfg p.2 st p.1).1, lastOkApplied_append, ← tick_current_foldl]

/-- C6: from a fresh monitor, after any run the remembered current profile is
unset when no application succeeded and otherwise is exactly the target of
the last successful application: a successful apply sets it, a failed apply
and a no-target tick leave it unchanged. -/
theorem monitor_current_profile_invariant (cfg : MonConfig) (lt : Option String)
    (inputs : List (Option WindowInfo × (String → Bool))) :
    (runMonitor cfg ⟨none, lt⟩ inputs).1.current_profile
      = lastOkApplied none (runMonitor cfg ⟨none, lt⟩ inputs).2 :=
  runMonitor_current_foldl cfg inputs ⟨none, lt⟩

/-- A configuration whose `mcp_profiles` section is non-empty but contains no
context rules. -/
def c4cfg : Json :=
  Json.obj [("mcp_profiles", Json.obj [("default_profile", Json.str "X")])]

/-- C4 counterexample: on a configuration whose `mcp_profiles` section has no
rules at all (only a default profile), `start_monitoring` still starts the
monitor, contradicting the claim that it refuses whenever there are no
profile rules. -/
theorem start_monitoring_no_rules_counterexample :
    contextsOf c4cfg = Json.arr [] ∧ start_monitoring (mcpConfigOf c4cfg) false = true :=
  ⟨rfl, rfl⟩

/-- C4 amended: from Stopped, `start_monitoring` launches the monitor exactly
when the `mcp_profiles` section of the configuration is truthy (non-empty);
it does not inspect the rules.  A missing file or malformed JSON loads as the
empty configuration, whose section is empty, so the monitor stays Stopped. -/
theorem start_monitoring_section_gate :
    (∀ cfg : Json, start_monitoring (mcpConfigOf cfg) false = (mcpConfigOf cfg).pyTruthy)
  ∧ start_monitoring (mcpConfigOf (load_config none)) false = false
  ∧ start_monitoring (mcpConfigOf (load_config (some none))) false = false := by
  refine ⟨?_, rfl, rfl⟩
  intro cfg
  unfold start_monitoring
  cases h : (mcpConfigOf cfg).pyTruthy <;> simp [h]

/-- The failure counter of the sub-event loop counts exactly the bindings
whose write the oracle refuses (on well-formed path-or-null values). -/
theorem applySubs_fail (setOk : String → String → String → Bool) (cat : String) :
    ∀ (subs : List (String × Option String)) (reg : Reg),
      (applySubs setOk cat reg (subs.map fun sv => (sv.1, encOpt sv.2))).2.2.1
        = subs.countP fun sv => !setOk cat (sv.2.getD "") sv.1 := by
  intro subs
  induction subs with
  | nil => intro reg; rfl
  | cons sv rest ih =>
    intro reg
    obtain ⟨sub, v⟩ := sv
    cases v with
    | none =>
      have he : encOpt none = Json.null := rfl
      simp only [List.map_cons, he, applySubs]
      by_cases h : setOk cat "" sub = true
      · rw [if_pos h]
        simp [List.countP_cons, h, Option.getD_none, ih]
      · rw [if_neg h]
        simp [List.countP_cons, h, Option.getD_none, ih]
    | some p =>
      have he : encOpt (some p) = Json.str p := rfl
      simp only [List.map_cons, he, applySubs]
      by_cases h : setOk cat p sub = true
      · rw [if_pos h]
        simp [List.countP_cons, h, Option.getD_some, ih]
      · rw [if_neg h]
        simp [List.countP_cons, h, Option.getD_some, ih]

/-- The failure counter of the category loop is the sum of the per-category
failure counts. -/
theorem applyCats_fail (setOk : String → String → String → Bool) :
    ∀ (m : SoundMap) (reg : Reg),
      (applyCats setOk reg (m.map fun cs => (cs.1, encodeSubs cs.2))).2.2.1
        = (m.map fun cs => cs.2.countP fun sv => !setOk cs.1 (sv.2.getD "") sv.1).sum := by
  intro m
  induction m with
  | nil => intro reg; rfl
  | cons cs rest ih =>
    intro reg
    obtain ⟨cat, subs⟩ := cs
    have he : encodeSubs subs = Json.obj (subs.map fun sv => (sv.1, encOpt sv.2)) := rfl
    simp only [List.map_cons, he, applyCats, List.sum_cons]
    simp [applySubs_fail setOk cat subs reg, ih]

/-- Zero failures over every category is the same as every binding's write
succeeding. -/
theorem sum_zero_iff_all (setOk : String → String → String → Bool) : ∀ m : SoundMap,
    ((m.map fun cs => cs.2.countP fun sv => !setOk cs.1 (sv.2.getD "") sv.1).sum = 0)
      ↔ (m.all fun cs => cs.2.all fun sv => setOk cs.1 (sv.2.getD "") sv.1) = true := by
  intro m
  induction m with
  | nil => simp
  | cons cs rest ih =>
    simp only [List.map_cons, List.sum_cons, List.all_cons, Nat.add_eq_zero,
      Bool.and_eq_true, ih]
    have hhead : (cs.2.countP (fun sv => !setOk cs.1 (sv.2.getD "") sv.1) = 0)
        ↔ (cs.2.all fun sv => setOk cs.1 (sv.2.getD "") sv.1) = true := by
      rw [List.countP_eq_zero, List.all_eq_true]
      constructor
      · intro h sv hsv
        simpa using h sv hsv
      · intro h sv hsv
        simpa using h sv hsv
    rw [hhead]

/-- A three-binding profile for the no-rollback example. -/
def c5m : SoundMap := [("A", [("1", some "p1"), ("2", some "p2"), ("3", some "p3")])]

/-- A write oracle refusing exactly the second binding's path. -/
def c5ok : String → String → String → Bool := fun _ p _ => !(p == "p2")

/-- The registry before the no-rollback example. -/
def c5reg : Reg := fun _ _ => "old"

/-- C5: on every loadable profile (a name plus a well-formed sounds mapping),
`apply_profile` reports success exactly when every binding's write succeeded,
zero bindings included; the concrete conjuncts show that with three bindings
whose second write fails, the overall result is failure yet the first and
third bindings are applied and the second keeps its prior registry value. -/
theorem apply_profile_success_iff :
    (∀ (setOk : String → String → String → Bool) (name : String) (m : SoundMap) (reg : Reg),
      (apply_profile_doc setOk (profileDoc name m) reg).1
        = (m.all fun cs => cs.2.all fun sv => setOk cs.1 (sv.2.getD "") sv.1))
  ∧ (apply_profile_doc c5ok (profileDoc "n" c5m) c5reg).1 = false
  ∧ (apply_profile_doc c5ok (profileDoc "n" c5m) c5reg).2 "A" "1" = "p1"
  ∧ (apply_profile_doc c5ok (profileDoc "n" c5m) c5reg).2 "A" "2" = "old"
  ∧ (apply_profile_doc c5ok (profileDoc "n" c5m) c5reg).2 "A" "3" = "p3" := by
  refine ⟨?_, by decide, by decide, by decide, by decide⟩
  intro setOk name m reg
  have hred : apply_profile_doc setOk (profileDoc name m) reg
      = (if 0 < (applyCats setOk reg (m.map fun cs => (cs.1, encodeSubs cs.2))).2.2.1
         then false
         else if (applyCats setOk reg (m.map fun cs => (cs.1, encodeSubs cs.2))).2.2.2 = 0
         then true else true,
         (applyCats setOk reg (m.map fun cs => (cs.1, encodeSubs cs.2))).1) := rfl
  rw [hred]
  cases hall : (m.all fun cs => cs.2.all fun sv => setOk cs.1 (sv.2.getD "") sv.1) with
  | true =>
    have hz : (m.map fun cs => cs.2.countP fun sv => !setOk cs.1 (sv.2.getD "") sv.1).sum = 0 :=
      (sum_zero_iff_all setOk m).mpr hall
    have hf : (applyCats setOk reg (m.map fun cs => (cs.1, encodeSubs cs.2))).2.2.1 = 0 := by
      rw [applyCats_fail]; exact hz
    simp [hf]
  | false =>
    have hz : (m.map fun cs => cs.2.countP fun sv => !setOk cs.1 (sv.2.getD "") sv.1).sum ≠ 0 := by
      intro hc
      rw [(sum_zero_iff_all setOk m).mp hc] at hall
      exact Bool.noConfusion hall
    have hf : 0 < (applyCats setOk reg (m.map fun cs => (cs.1, encodeSubs cs.2))).2.2.1 :=
      Nat.pos_of_ne_zero (by rw [applyCats_fail]; exact hz)
    simp [hf]

/-- A persisted document whose `sounds` value is a string, not a mapping. -/
def c7doc : Json := Json.obj [("name", Json.str "p"), ("sounds", Json.str "oops")]

/-- The profile directory holding only that document, under name `"p"`. -/
def c7files : FS := fun n => if n = "p" then some (some c7doc) else none

/-- C7 counterexample: the claim calls a document with a non-mapping `sounds`
structurally invalid and expects a load failure, but `load_profile` only
checks that the `sounds` key exists, so it returns this document. -/
theorem load_profile_nonmapping_sounds_counterexample :
    load_profile c7files "p" = some c7doc := rfl

/-- C7 amended: `load_profile` validates that the document is a mapping
containing `name` and `sounds` keys: undecodable JSON, a non-mapping
top-level value and a missing key each yield a failure indicator, and every
successfully loaded document is a mapping with both keys; the type of the
`sounds` value itself is not checked. -/
theorem load_profile_shape_check (files : FS) (name : String) (doc : Json) :
    (files name = some none → load_profile files name = none)
  ∧ (files name = some (some doc) →
      (∀ kvs, doc = Json.obj kvs → lookupKV kvs "name" = none ∨ lookupKV kvs "sounds" = none) →
      load_profile files name = none)
  ∧ (load_profile files name = some doc →
      ∃ kvs, doc = Json.obj kvs
        ∧ (lookupKV kvs "name").isSome = true ∧ (lookupKV kvs "sounds").isSome = true) := by
  refine ⟨?_, ?_, ?_⟩
  · intro h
    unfold load_profile
    rw [h]
    split <;> rfl
  · intro h hbad
    unfold load_profile
    rw [h]
    have hvs : validShape doc = false := by
      cases doc with
      | obj kvs =>
        rcases hbad kvs rfl with hn | hs
        · simp [validShape, hn]
        · simp [validShape, hs]
      | null => rfl
      | bool b => rfl
      | num n => rfl
      | str s => rfl
      | arr xs => rfl
    split
    · show (if validShape doc = true then some doc else none) = none
      rw [hvs]
      rfl
    · rfl
  · intro h
    unfold load_profile at h
    split at h
    · revert h
      cases hf : files name with
      | none => intro h; exact Option.noConfusion h
      | some fc =>
        cases fc with
        | none => intro h; exact Option.noConfusion h
        | some d =>
          intro h
          have h2 : (if validShape d = true then some d else none) = some doc := h
          by_cases hv : validShape d = true
          · rw [if_pos hv] at h2
            have hd : d = doc := Option.some.inj h2
            subst hd
            cases d with
            | obj kvs =>
              simp only [validShape, Bool.and_eq_true] at hv
              exact ⟨kvs, rfl, hv.1, hv.2⟩
            | null => exact Bool.noConfusion hv
            | bool b => exact Bool.noConfusion hv
            | num n => exact Bool.noConfusion hv
            | str s => exact Bool.noConfusion hv
            | arr xs => exact Bool.noConfusion hv
          · rw [if_neg hv] at h2
            exact Option.noConfusion h2
    · exact Option.noConfusion h

/-- Witness for C7 as amended: a file that exists but holds undecodable JSON
makes `load_profile` return a failure indicator. -/
theorem load_profile_shape_check_witness :
    load_profile (fun _ => some none) "p" = none :=
  (load_profile_shape_check (fun _ => some none) "p" Json.null).1 rfl

/-- JSON encoding of path-or-null values is injective. -/
theorem encOpt_inj : ∀ a b : Option String, encOpt a = encOpt b → a = b := by
  intro a b h
  cases a <;> cases b <;> simp [encOpt] at h <;> simp [h]

/-- JSON encoding of one category's sub-event mapping is injective. -/
theorem encodeSubs_inj : ∀ a b : List (String × Option String),
    encodeSubs a = encodeSubs b → a = b := by
  intro a b h
  simp only [encodeSubs, Json.obj.injEq] at h
  have hinj : Function.Injective fun sv : String × Option String => (sv.1, encOpt sv.2) := by
    intro x y hxy
    obtain ⟨x1, x2⟩ := x
    obtain ⟨y1, y2⟩ := y
    simp only [Prod.mk.injEq] at hxy
    exact Prod.ext hxy.1 (encOpt_inj x2 y2 hxy.2)
  exact List.map_injective_iff.mpr hinj h

/-- JSON encoding of the whole sounds mapping is injective. -/
theorem encodeSounds_inj : ∀ a b : SoundMap, encodeSounds a = encodeSounds b → a = b := by
  intro a b h
  simp only [encodeSounds, Json.obj.injEq] at h
  have hinj : Function.Injective
      fun cs : String × List (String × Option String) => (cs.1, encodeSubs cs.2) := by
    intro x y hxy
    obtain ⟨x1, x2⟩ := x
    obtain ⟨y1, y2⟩ := y
    simp only [Prod.mk.injEq] at hxy
    exact Prod.ext hxy.1 (encodeSubs_inj x2 y2 hxy.2)
  exact List.map_injective_iff.mpr hinj h

/-- C8: for every valid profile name and Sound Store contents (empty
sub-event mappings included), saving and then loading returns exactly the
snapshot document, whose `sounds` entry is the encoding of the store at save
time; the injectivity conjunct makes that encoding faithful. -/
theorem save_load_roundtrip (files : FS) (store : SoundMap) (name : String)
    (h : _is_valid_profile_name name = true) :
    load_profile (save_profile files store name).1 name = some (profileDoc name store)
  ∧ (profileDoc name store).getD "sounds" Json.null = encodeSounds store
  ∧ (∀ s1 s2 : SoundMap, encodeSounds s1 = encodeSounds s2 → s1 = s2) := by
  refine ⟨?_, rfl, encodeSounds_inj⟩
  unfold save_profile
  rw [if_pos h]
  unfold load_profile
  rw [if_pos h]
  show (match (if name = name then some (some (profileDoc name store)) else files name) with
    | some (some doc) => if validShape doc = true then some doc else none
    | _ => none) = some (profileDoc name store)
  rw [if_pos rfl]
  show (if validShape (profileDoc name store) = true then some (profileDoc name store)
      else none) = some (profileDoc name store)
  have hv : validShape (profileDoc name store) = true := rfl
  rw [if_pos hv]

/-- The Sound Store contents of the round-trip witness, with one category
holding two bindings (one of them null) and one empty category. -/
def c8store : SoundMap :=
  [("SystemAsterisk", [(".Current", some "C:\\a.wav"), (".Default", none)]),
   ("EmptyCat", [])]

/-- Witness for C8 at the name `"Work Profile-1"` and a store with an empty
category. -/
theorem save_load_roundtrip_witness :
    _is_valid_profile_name "Work Profile-1" = true
  ∧ load_profile (save_profile (fun _ => none) c8store "Work Profile-1").1 "Work Profile-1"
      = some (profileDoc "Work Profile-1" c8store) :=
  ⟨by decide, (save_load_roundtrip (fun _ => none) c8store "Work Profile-1" (by decide)).1⟩

/-- C10: when the persisted file of a valid profile name holds a well-shaped
document whose embedded `name` field differs from the requested name,
`load_profile` still returns that document (the mismatch only logs a
warning); it is not treated as a load failure. -/
theorem load_profile_name_mismatch (files : FS) (name other : String)
    (kvs : List (String × Json))
    (hvalid : _is_valid_profile_name name = true)
    (hfile : files name = some (some (Json.obj kvs)))
    (hname : lookupKV kvs "name" = some (Json.str other))
    (hsounds : (lookupKV kvs "sounds").isSome = true)
    (hne : other ≠ name) :
    load_profile files name = some (Json.obj kvs) := by
  unfold load_profile
  rw [if_pos hvalid, hfile]
  show (if validShape (Json.obj kvs) = true then some (Json.obj kvs) else none)
    = some (Json.obj kvs)
  have hv : validShape (Json.obj kvs) = true := by
    simp [validShape, hname, hsounds]
  rw [if_pos hv]

/-- The stored document of the C10 witness: its embedded name `"r"` differs
from the file's profile name `"q"`. -/
def c10kvs : List (String × Json) :=
  [("name", Json.str "r"), ("sounds", Json.obj [])]

/-- The profile directory of the C10 witness. -/
def c10files : FS := fun n => if n = "q" then some (some (Json.obj c10kvs)) else none

/-- Witness for C10: loading `"q"` returns the document whose embedded name
is `"r"`. -/
theorem load_profile_name_mismatch_witness :
    load_profile c10files "q" = some (Json.obj c10kvs) :=
  load_profile_name_mismatch c10files "q" "r" c10kvs (by decide) rfl rfl rfl (by decide)
